import Mathlib

/- Verification model of lilac.py, a minimal asynchronous HTTP routing core.

   Modelling conventions, translated from the source (src/lilac.py):
   - byte strings are modelled by their decoded UTF-8 text, since every byte
     value the claims touch is immediately decoded or encoded by the code;
   - Python exceptions are modelled by an explicit error type PyErr and the
     Except monad; handler-level failures are the ordinary Exception values
     the dispatcher distinguishes (HTTPError versus everything else);
   - Python dicts are modelled as association lists with the insertion
     semantics of CPython dicts (update in place, append new keys);
   - the regular expression built by Route._compile is modelled by its token
     list (literal characters, which re.escape makes atomic, and named groups
     matching one or more non-slash characters).  The end anchor is the
     Python dollar anchor, which accepts the end of the string or the
     position just before a single trailing newline;
   - re.compile rejects a pattern that defines the same group name twice,
     which the duplicate-name check below reproduces.  The additional
     requirement that a group name be a Python identifier is not modelled;
     no claim depends on it, and it only shrinks the set of templates that
     compile. -/

/-- Python exception values raised by the modelled code paths. -/
inductive PyErr where
  | valueError (msg : String)
  | reError (msg : String)
  | typeError (msg : String)
  | keyError (key : String)
  deriving DecidableEq, Repr

/-- Python str.upper, applied per character (the code only uppercases ASCII
    HTTP method names). -/
def pyUpper (s : String) : String := String.mk (s.toList.map Char.toUpper)

/-- Python str.lower, applied per character (used on ASCII header names). -/
def pyLower (s : String) : String := String.mk (s.toList.map Char.toLower)

/-- CPython dict assignment d[k] = v: update the value in place when the key
    is present, otherwise append the new binding. -/
def dictInsert : List (String × String) → String → String → List (String × String)
  | [], k, v => [(k, v)]
  | kv :: rest, k, v => if kv.1 = k then (kv.1, v) :: rest else kv :: dictInsert rest k v

/-- JSON values handled by json.dumps in the code (floats are never produced
    by the modelled paths). -/
inductive Json where
  | null
  | bool (b : Bool)
  | num (n : Int)
  | str (s : String)
  | arr (xs : List Json)
  | obj (kvs : List (String × Json))
  deriving Repr

/-- Lowercase hexadecimal digit. -/
def hexDigit (n : Nat) : Char := if n < 10 then Char.ofNat (48 + n) else Char.ofNat (87 + n)

/-- Four lowercase hexadecimal digits, as in the \uXXXX escapes of json.dumps. -/
def hex4 (n : Nat) : String :=
  String.mk [hexDigit (n / 4096 % 16), hexDigit (n / 256 % 16), hexDigit (n / 16 % 16),
    hexDigit (n % 16)]

/-- Escaping of one character inside a JSON string literal, following
    json.dumps with its default ensure_ascii=True (non-ASCII characters
    become \uXXXX escapes, astral characters a surrogate pair). -/
def escChar (c : Char) : String :=
  if c = '\x22' then "\\\""
  else if c = '\\' then "\\\\"
  else if c = '\n' then "\\n"
  else if c = '\x0d' then "\\r"
  else if c = '\t' then "\\t"
  else if c = '\x08' then "\\b"
  else if c = '\x0c' then "\\f"
  else if c.toNat < 32 ∨ c.toNat > 126 then
    if c.toNat ≤ 65535 then "\\u" ++ hex4 c.toNat
    else "\\u" ++ hex4 (55296 + (c.toNat - 65536) / 1024)
      ++ "\\u" ++ hex4 (56320 + (c.toNat - 65536) % 1024)
  else String.singleton c

/-- JSON string literal with quotes, as produced by json.dumps. -/
def jsonStr (s : String) : String := "\"" ++ String.join (s.toList.map escChar) ++ "\""

mutual

/-- json.dumps with its default separators (comma-space and colon-space). -/
def dumps : Json → String
  | .null => "null"
  | .bool b => cond b "true" "false"
  | .num n => toString n
  | .str s => jsonStr s
  | .arr xs => "[" ++ dumpsList xs ++ "]"
  | .obj kvs => "\x7b" ++ dumpsObj kvs ++ "\x7d"

/-- Comma-separated serialisation of array elements. -/
def dumpsList : List Json → String
  | [] => ""
  | [x] => dumps x
  | x :: y :: xs => dumps x ++ ", " ++ dumpsList (y :: xs)

/-- Comma-separated serialisation of object members. -/
def dumpsObj : List (String × Json) → String
  | [] => ""
  | [kv] => jsonStr kv.1 ++ ": " ++ dumps kv.2
  | kv :: kv2 :: xs => jsonStr kv.1 ++ ": " ++ dumps kv.2 ++ ", " ++ dumpsObj (kv2 :: xs)

end

/-- The content-type header appended for JSON bodies (lilac.py line 83). -/
def jsonCT : String × String := ("content-type", "application/json; charset=utf-8")

/-- Response: status code, ordered header list, body bytes. -/
structure Response where
  status : Int
  headers : List (String × String)
  body_bytes : String
  deriving DecidableEq, Repr

/-- Python values a handler may return, as discriminated by the isinstance
    chain of Response.__init__: a Response instance, a dict, a list, a str,
    bytes, None, or an unsupported shape (represented by an int, the example
    the claims use). -/
inductive PyValue where
  | respV (r : Response)
  | jdict (kvs : List (String × Json))
  | jlist (xs : List Json)
  | strV (s : String)
  | bytesV (b : String)
  | noneV
  | intV (n : Int)
  deriving Repr

/-- Python media_type-or-default for the str branch of Response.__init__:
    None and the empty string are falsy, so both select the default. -/
def pyOrStr : Option String → String → String
  | some s, d => if s = "" then d else s
  | none, d => d

/-- The optional content-type header appended in the bytes and None branches
    of Response.__init__: appended only when media_type is truthy. -/
def ctOpt : Option String → List (String × String)
  | some mt => if mt = "" then [] else [("content-type", mt)]
  | none => []

/-- Response.__init__ (lilac.py lines 71-96).  The headers argument models
    the headers-or-empty-list expression; a dict or list body is JSON
    encoded with the json content-type appended; a str body is encoded with
    a text or caller-supplied content-type; bytes pass through; None yields
    an empty body; any other shape raises TypeError. -/
def Response.make (content : PyValue) (status : Int) (headers : List (String × String))
    (media_type : Option String) : Except PyErr Response :=
  match content with
  | .jdict kvs => .ok ⟨status, headers ++ [jsonCT], dumps (.obj kvs)⟩
  | .jlist xs => .ok ⟨status, headers ++ [jsonCT], dumps (.arr xs)⟩
  | .strV s =>
    .ok ⟨status, headers ++ [("content-type", pyOrStr media_type "text/plain; charset=utf-8")], s⟩
  | .bytesV b => .ok ⟨status, headers ++ ctOpt media_type, b⟩
  | .noneV => .ok ⟨status, headers ++ ctOpt media_type, ""⟩
  | .respV _ => .error (.typeError "Unsupported content type for Response")
  | .intV _ => .error (.typeError "Unsupported content type for Response")

/-- Specialisation of the constructor to the str branch, which cannot raise;
    make_str_eq below proves it agrees with Response.make. -/
def Response.fromStr (s : String) (status : Int) : Response :=
  ⟨status, [("content-type", "text/plain; charset=utf-8")], s⟩

/-- The Response.json classmethod on a structured payload: the generic
    constructor invoked with a dict or list and no extra headers;
    make_dict_eq below proves it agrees with Response.make. -/
def Response.jsonR (data : Json) (status : Int) : Response :=
  ⟨status, [jsonCT], dumps data⟩

/-- HTTPError carries a status and a detail string. -/
structure HTTPError where
  status : Int
  detail : String
  deriving DecidableEq, Repr

/-- HTTPError.__init__ (lilac.py lines 197-201): the detail-or-fallback
    expression makes the detail default to the text HTTP followed by the
    status whenever the given detail is the (falsy) empty string, which is
    also the Python default argument. -/
def HTTPError.init (status : Int) (detail : String) : HTTPError :=
  ⟨status, if detail = "" then "HTTP " ++ toString status else detail⟩

/-- Outcome of awaiting a handler: a returned value, a raised HTTPError, or
    any other raised Exception (its message is carried only to show it never
    reaches the client). -/
inductive HandlerOutcome where
  | ret (v : PyValue)
  | raiseHTTP (e : HTTPError)
  | raiseExc (info : String)

/-- A handler, abstracted as a function from the captured parameter mapping
    to its outcome; the request argument and any effects inside the handler
    are folded into the outcome. -/
def Handler := List (String × String) → HandlerOutcome

/-- A compiled route-template element: a literal character (re.escape makes
    every literal atomic) or a named group matching one or more non-slash
    characters. -/
inductive Token where
  | lit (c : Char)
  | param (name : String)
  deriving DecidableEq, Repr

/-- The ValueError message of Route._compile for an unterminated brace. -/
def unmatchedMsg : String := "Unmatched \x27\x7b\x27 in route path"

/-- The re.error raised by re.compile when a group name is defined twice. -/
def dupMsg : String := "redefinition of group name"

/-- The template scan of Route._compile (lilac.py lines 109-126), written as
    a character state machine: outside a placeholder (mode none) a literal
    character becomes a literal token and an opening brace starts name
    accumulation; inside a placeholder (mode some acc, name characters in
    reverse) the first closing brace ends the name, exactly like the
    index-and-find scan of the source.  Reaching the end of the template
    inside a placeholder is the unmatched-brace ValueError. -/
def scanTemplate : List Char → Option (List Char) → Except PyErr (List Token × List String)
  | [], none => .ok ([], [])
  | [], some _ => .error (.valueError unmatchedMsg)
  | c :: rest, none =>
    if c = '\x7b' then scanTemplate rest (some [])
    else (scanTemplate rest none).map fun p => (.lit c :: p.1, p.2)
  | c :: rest, some acc =>
    if c = '\x7d' then
      (scanTemplate rest none).map fun p =>
        (.param (String.mk acc.reverse) :: p.1, String.mk acc.reverse :: p.2)
    else scanTemplate rest (some (c :: acc))

/-- Whether a list of group names contains a duplicate. -/
def hasDup : List String → Bool
  | [] => false
  | n :: ns => ns.contains n || hasDup ns

/-- Route._compile followed by re.compile: scan the template, then reject
    the pattern when it defines the same group name twice, as re.compile
    does. -/
def compileTemplate (path : String) : Except PyErr (List Token × List String) :=
  match scanTemplate path.toList none with
  | .error e => .error e
  | .ok p => if hasDup p.2 then .error (.reError dupMsg) else .ok p

/-- Route: uppercased method, original template, compiled tokens, group
    names, handler. -/
structure Route where
  method : String
  path : String
  tokens : List Token
  param_names : List String
  handler : Handler

/-- Route.__init__: uppercase the method and compile the template,
    propagating a compile-time failure. -/
def Route.build (method path : String) (h : Handler) : Except PyErr Route :=
  (compileTemplate path).map fun p => ⟨pyUpper method, path, p.1, p.2, h⟩

/-- Length of the longest slash-free prefix: how much a greedy non-slash
    group consumes before backtracking. -/
def leadRun : List Char → Nat
  | [] => 0
  | c :: cs => if c = '/' then 0 else leadRun cs + 1

/-- The list m, m-1, ..., 1: candidate capture lengths in greedy order. -/
def downFrom : Nat → List Nat
  | 0 => []
  | k + 1 => (k + 1) :: downFrom k

/-- Backtracking matcher for the compiled pattern, with the exact semantics
    of the Python regex: a literal token matches its character, a named
    group greedily matches the longest slash-free non-empty prefix and
    backtracks, and the final dollar anchor accepts the end of the path or
    the position just before a single trailing newline.  The fuel argument
    only bounds recursion depth; one token is consumed per unit, so the
    wrapper matchTokens below always supplies enough. -/
def matchGo : Nat → List Token → List Char → Option (List (String × String))
  | 0, _, _ => none
  | _ + 1, [], rest => if rest = [] ∨ rest = ['\n'] then some [] else none
  | f + 1, .lit c :: ts, rest =>
    match rest with
    | [] => none
    | x :: xs => if x = c then matchGo f ts xs else none
  | f + 1, .param n :: ts, xs =>
    (downFrom (leadRun xs)).findSome? fun k =>
      (matchGo f ts (xs.drop k)).map fun caps => (n, String.mk (xs.take k)) :: caps

/-- The anchored match of the compiled pattern against a path, with the
    captures of groupdict in group order. -/
def matchTokens (ts : List Token) (xs : List Char) : Option (List (String × String)) :=
  matchGo (ts.length + 1) ts xs

/-- Route.matches (lilac.py lines 129-135): reject on a method mismatch
    after uppercasing, otherwise run the anchored pattern and return
    groupdict. -/
def Route.matches (r : Route) (method path : String) : Option (List (String × String)) :=
  if pyUpper method ≠ r.method then none
  else matchTokens r.tokens path.toList

/-- The route table: an ordered list of routes. -/
abbrev Router := List Route

/-- Router.find (lilac.py lines 145-150): first match in registration
    order; none models the (None, empty dict) miss result. -/
def Router.find : Router → String → String → Option (Route × List (String × String))
  | [], _, _ => none
  | r :: rest, method, path =>
    match r.matches method path with
    | some params => some (r, params)
    | none => Router.find rest method path

/-- Router.add (lilac.py lines 142-143): append a freshly compiled route,
    propagating a compile-time failure, in which case the table is
    unchanged. -/
def Router.add (rs : Router) (method path : String) (h : Handler) : Except PyErr Router :=
  (Route.build method path h).map fun r => rs ++ [r]

/-- The per-request endpoint of Lilac.__call__ (lilac.py lines 175-191),
    up to the Response value handed to the transport: route lookup on the
    uppercased method, 404 on a miss, otherwise the try block around the
    handler: a Response return passes through, any other return value is
    wrapped by the Response constructor (a TypeError from the wrap is caught
    by the generic except clause), a raised HTTPError becomes its status
    with a JSON detail body, and any other Exception becomes a 500 with the
    fixed JSON body.  The function is total: every handler outcome is
    normalised to a Response, so no handler failure escapes the dispatcher. -/
def endpoint (router : Router) (method path : String) : Response :=
  match Router.find router (pyUpper method) path with
  | none => Response.fromStr "Not Found" 404
  | some (r, params) =>
    match r.handler params with
    | .ret (.respV resp) => resp
    | .ret v =>
      match Response.make v 200 [] none with
      | .ok resp => resp
      | .error _ => Response.jsonR (.obj [("detail", .str "Internal Server Error")]) 500
    | .raiseHTTP he => Response.jsonR (.obj [("detail", .str he.detail)]) he.status
    | .raiseExc _ => Response.jsonR (.obj [("detail", .str "Internal Server Error")]) 500

/-- The string-keyed slice of an ASGI scope mapping whose values are header
    pair sequences (name and value already decoded, per the byte-string
    convention above). -/
abbrev ScopeHeaders := List (String × List (String × String))

/-- The Request.headers property (lilac.py lines 28-30): it subscripts the
    scope with the capitalised key Headers, then lowercases each decoded
    name into a dict.  A missing key is a KeyError. -/
def requestHeaders (scope : ScopeHeaders) : Except PyErr (List (String × String)) :=
  match scope.lookup "Headers" with
  | none => .error (.keyError "Headers")
  | some hs => .ok (hs.foldl (fun d kv => dictInsert d (pyLower kv.1) kv.2) [])

/-- One message from the transport receive operation: its type, body bytes
    (defaulting to empty) and more_body flag (defaulting to false), per the
    msg.get calls in Request.body. -/
structure Msg where
  type : String
  body : String
  more_body : Bool
  deriving DecidableEq, Repr

/-- The while loop of Request.body (lilac.py lines 50-60) over a queue of
    pending transport messages: an http.request message contributes its body
    and continues while more_body holds; any other message type stops the
    loop without contributing.  Returns the collected chunks, the unread
    rest of the queue, and the number of receive calls made; none models a
    receive that would suspend forever on an exhausted queue. -/
def drainLoop : List Msg → Option (List String × List Msg × Nat)
  | [] => none
  | m :: rest =>
    if m.type = "http.request" then
      if m.more_body then
        (drainLoop rest).map fun r => (m.body :: r.1, r.2.1, r.2.2 + 1)
      else some ([m.body], rest, 1)
    else some ([], rest, 1)

/-- Request.body (lilac.py lines 48-62): with a cached body return it
    immediately with zero receive calls; otherwise drain the stream, join
    the chunks, and cache the result.  Returns the body, the new cache, the
    unread stream and the receive count. -/
def requestBody : Option String → List Msg → Option (String × Option String × List Msg × Nat)
  | some b, stream => some (b, some b, stream, 0)
  | none, stream =>
    (drainLoop stream).map fun r => (String.join r.1, some (String.join r.1), r.2.1, r.2.2)

/-- Request.json (lilac.py lines 64-68), up to the bytes handed to
    json.loads: call body; an empty body yields the Python None result
    (modelled as none), otherwise the cached bytes are passed to the JSON
    parser (modelled as some of those bytes, since the claims concern only
    which bytes json observes). -/
def requestJson (cache : Option String) (stream : List Msg) :
    Option (Option String × Option String × List Msg × Nat) :=
  (requestBody cache stream).map fun r => (if r.1 = "" then none else some r.1, r.2)

/-- Python split on the ampersand separator (the only separator the code
    uses), including its behaviour on the empty string and on empty
    fields. -/
def splitAmp : List Char → List (List Char)
  | [] => [[]]
  | c :: rest =>
    if c = '&' then [] :: splitAmp rest
    else
      match splitAmp rest with
      | [] => [[c]]
      | g :: gs => (c :: g) :: gs

/-- Split a pair at its first equals sign: everything before the first
    equals, and everything after it (Python split with maxsplit one). -/
def breakAtEq : List Char → List Char × List Char
  | [] => ([], [])
  | c :: rest =>
    if c = '=' then ([], rest)
    else ((c :: (breakAtEq rest).1), (breakAtEq rest).2)

/-- String form of breakAtEq. -/
def splitFirstEq (pair : String) : String × String :=
  (String.mk (breakAtEq pair.toList).1, String.mk (breakAtEq pair.toList).2)

/-- Python membership test of the equals character in a pair. -/
def containsEq (pair : String) : Bool := pair.toList.any fun c => c == '='

/-- The per-pair branch of Request.query_params: split at the first equals
    when one is present, otherwise the whole pair is a bare key with an
    empty value. -/
def pairSplit (pair : String) : String × String :=
  if containsEq pair then splitFirstEq pair else (pair, "")

/-- The pair list of Request.query_params: split the decoded query string on
    ampersands, skip empty fields, split each remaining pair. -/
def queryPairs (qs : String) : List (String × String) :=
  (splitAmp qs.toList).filterMap fun pair =>
    if pair = [] then none else some (pairSplit (String.mk pair))

/-- Request.query_params (lilac.py lines 32-46) on the decoded query
    string: an empty string yields the empty dict (the truthiness guard),
    otherwise the pairs are folded into a dict, later keys overwriting
    earlier ones. -/
def queryParams (qs : String) : List (String × String) :=
  if qs = "" then [] else (queryPairs qs).foldl (fun d kv => dictInsert d kv.1 kv.2) []

/-- A handler used to populate concrete route tables in witnesses. -/
def noHandler : Handler := fun _ => .ret .noneV

/-- The group names of a token list, in group order. -/
def paramNamesOf (ts : List Token) : List String :=
  ts.filterMap fun t => match t with | .lit _ => none | .param n => some n

/-- Concatenation of the matched literals and the captured values in token
    order: the exact text a successful match consumed. -/
def flatten : List Token → List String → List Char
  | [], _ => []
  | .lit c :: ts, vs => c :: flatten ts vs
  | .param _ :: _, [] => []
  | .param _ :: ts, v :: vs => v.toList ++ flatten ts vs

/-- The token list a template compiles to (empty on a compile failure);
    convenience wrapper for concrete evaluations. -/
def templateTokens (tpl : String) : List Token :=
  match compileTemplate tpl with
  | .ok p => p.1
  | .error _ => []

/-- Match a path against the matcher compiled from a template. -/
def templateMatch (tpl path : String) : Option (List (String × String)) :=
  matchTokens (templateTokens tpl) path.toList

/-- Whether some closing brace occurs in the list. -/
def containsClose : List Char → Bool
  | [] => false
  | c :: rest => c == '\x7d' || containsClose rest

/-- Whether the template contains an opening brace with no closing brace
    anywhere after it. -/
def hasUnterminated : List Char → Bool
  | [] => false
  | c :: rest => (c == '\x7b' && !containsClose rest) || hasUnterminated rest

/-- The suffix after the first closing brace (empty when there is none). -/
def afterBrace : List Char → List Char
  | [] => []
  | c :: rest => if c = '\x7d' then rest else afterBrace rest

/-- The last value bound to a key in a pair list, if any. -/
def lastVal (k : String) : List (String × String) → Option String
  | [] => none
  | kv :: ps =>
    match lastVal k ps with
    | some v => some v
    | none => if kv.1 = k then some kv.2 else none

/-- A handler that raises a non-HTTPError exception, for concrete tables. -/
def excHandler : Handler := fun _ => .raiseExc "boom"

/-- Concrete route GET /x whose handler raises an unexpected exception. -/
def excRoute : Route := ⟨"GET", "/x", [.lit '/', .lit 'x'], [], excHandler⟩

/-- Concrete route POST /x (method mismatch for GET requests). -/
def postRoute : Route := ⟨"POST", "/x", [.lit '/', .lit 'x'], [], noHandler⟩

/-- Concrete route GET /x, registered earlier. -/
def getRouteA : Route := ⟨"GET", "/x", [.lit '/', .lit 'x'], [], noHandler⟩

/-- Concrete route GET /x, registered later, with a distinct handler. -/
def getRouteB : Route := ⟨"GET", "/x", [.lit '/', .lit 'x'], [], excHandler⟩

/-- A handler that raises HTTPError with status 418 and detail teapot. -/
def httpErrHandler : Handler := fun _ => .raiseHTTP (HTTPError.init 418 "teapot")

/-- Concrete route GET /x whose handler raises an HTTPError. -/
def httpErrRoute : Route := ⟨"GET", "/x", [.lit '/', .lit 'x'], [], httpErrHandler⟩

/-- A handler that returns a bare integer, an unsupported response shape. -/
def intHandler : Handler := fun _ => .ret (.intV 7)

/-- Concrete route GET /x whose handler returns a bare integer. -/
def intRoute : Route := ⟨"GET", "/x", [.lit '/', .lit 'x'], [], intHandler⟩

theorem make_str_eq (s : String) (st : Int) :
    Response.make (.strV s) st [] none = .ok (Response.fromStr s st) := rfl

theorem make_dict_eq (kvs : List (String × Json)) (st : Int) :
    Response.make (.jdict kvs) st [] none = .ok (Response.jsonR (.obj kvs) st) := rfl
theorem hasUnterminated_afterBrace (l : List Char) (hc : containsClose l = true)
    (hu : hasUnterminated l = true) : hasUnterminated (afterBrace l) = true := by
  induction l with
  | nil => simp [containsClose] at hc
  | cons c rest ih =>
    rw [containsClose] at hc
    rw [hasUnterminated] at hu
    by_cases h : c = '\x7d'
    · rw [afterBrace, if_pos h]
      subst h
      simpa using hu
    · rw [afterBrace, if_neg h]
      have hc' : containsClose rest = true := by
        have : (c == '\x7d') = false := by simpa using h
        rw [this] at hc; simpa using hc
      have hu' : hasUnterminated rest = true := by
        rw [hc'] at hu
        simpa using hu
      exact ih hc' hu'

theorem scan_error_of_unterminated (l : List Char) :
    (hasUnterminated l = true → scanTemplate l none = .error (.valueError unmatchedMsg))
    ∧ (∀ acc, (!containsClose l || hasUnterminated (afterBrace l)) = true →
        scanTemplate l (some acc) = .error (.valueError unmatchedMsg)) := by
  induction l with
  | nil =>
    constructor
    · intro hu; simp [hasUnterminated] at hu
    · intro acc _; rfl
  | cons c rest ih =>
    obtain ⟨ih1, ih2⟩ := ih
    constructor
    · intro hu
      rw [hasUnterminated] at hu
      by_cases hc : c = '\x7b'
      · rw [scanTemplate, if_pos hc]
        apply ih2
        cases hcc : containsClose rest with
        | false => simp [hcc]
        | true =>
          have hu' : hasUnterminated rest = true := by
            rw [hcc] at hu; simpa using hu
          simp [hcc, hasUnterminated_afterBrace rest hcc hu']
      · rw [scanTemplate, if_neg hc]
        have hu' : hasUnterminated rest = true := by
          have : (c == '\x7b') = false := by simpa using hc
          rw [this] at hu; simpa using hu
        rw [ih1 hu']
        rfl
    · intro acc h
      by_cases hc : c = '\x7d'
      · rw [scanTemplate, if_pos hc]
        have hcc : containsClose (c :: rest) = true := by
          rw [containsClose]; simp [hc]
        rw [hcc] at h
        have hu' : hasUnterminated (afterBrace (c :: rest)) = true := by simpa using h
        rw [afterBrace, if_pos hc] at hu'
        rw [ih1 hu']
        rfl
      · rw [scanTemplate, if_neg hc]
        apply ih2
        have h1 : containsClose (c :: rest) = containsClose rest := by
          rw [containsClose]
          have : (c == '\x7d') = false := by simpa using hc
          rw [this]; simp
        have h2 : afterBrace (c :: rest) = afterBrace rest := by
          rw [afterBrace, if_neg hc]
        rw [h1, h2] at h
        exact h

/-- Claim C9 (confirmed): a route template containing an opening brace with no
    closing brace anywhere after it fails at registration time: compilation
    raises the unmatched-brace ValueError of the template scan, and Router.add
    propagates the failure, so no route is appended and the route table cannot
    silently omit the route; nothing is deferred to request time. -/
theorem unterminated_template_fails (tpl : String) (hu : hasUnterminated tpl.toList = true) :
    compileTemplate tpl = .error (.valueError unmatchedMsg)
    ∧ ∀ (rs : Router) (m : String) (h : Handler),
        Router.add rs m tpl h = .error (.valueError unmatchedMsg) := by
  have hscan := (scan_error_of_unterminated tpl.toList).1 hu
  have hc : compileTemplate tpl = .error (.valueError unmatchedMsg) := by
    rw [compileTemplate, hscan]
  refine ⟨hc, fun rs m h => ?_⟩
  rw [Router.add, Route.build, hc]
  rfl

theorem unterminated_template_fails_witness :
    compileTemplate "/bad/\x7bname" = .error (.valueError unmatchedMsg)
    ∧ Router.add [] "GET" "/bad/\x7bname" noHandler = .error (.valueError unmatchedMsg) :=
  ⟨(unterminated_template_fails "/bad/\x7bname" (by decide)).1,
   (unterminated_template_fails "/bad/\x7bname" (by decide)).2 [] "GET" noHandler⟩

/-- Claim C6 (counterexample): the template /a/{x}/{x} with a repeated
    placeholder name does not register: compilation fails with the re.error
    for a redefined group name, and Router.add fails the same way, refuting
    the claim that registration succeeds with later-capture-overwrites
    semantics. -/
theorem duplicate_placeholder_counterexample :
    compileTemplate "/a/{x}/{x}" = .error (.reError dupMsg)
    ∧ Router.add [] "GET" "/a/{x}/{x}" noHandler = .error (.reError dupMsg) := by
  exact ⟨rfl, rfl⟩

/-- Claim C6 (amended, proved): whenever the template scan yields a
    duplicated placeholder name, compilation fails with the group-name
    redefinition error of re.compile and Router.add fails identically,
    leaving the route table unchanged; no matcher with overwrite semantics
    is ever produced. -/
theorem duplicate_placeholder_rejected (tpl : String) (ts : List Token) (ns : List String)
    (hscan : scanTemplate tpl.toList none = .ok (ts, ns)) (hdup : hasDup ns = true) :
    compileTemplate tpl = .error (.reError dupMsg)
    ∧ ∀ (rs : Router) (m : String) (h : Handler),
        Router.add rs m tpl h = .error (.reError dupMsg) := by
  have hc : compileTemplate tpl = .error (.reError dupMsg) := by
    rw [compileTemplate, hscan]
    simp [hdup]
  refine ⟨hc, fun rs m h => ?_⟩
  rw [Router.add, Route.build, hc]
  rfl

theorem duplicate_placeholder_rejected_witness :
    compileTemplate "/a/{x}/{x}" = .error (.reError dupMsg)
    ∧ Router.add [] "POST" "/a/{x}/{x}" noHandler = .error (.reError dupMsg) :=
  ⟨(duplicate_placeholder_rejected "/a/{x}/{x}"
      [.lit '/', .lit 'a', .lit '/', .param "x", .lit '/', .param "x"] ["x", "x"] rfl rfl).1,
   (duplicate_placeholder_rejected "/a/{x}/{x}"
      [.lit '/', .lit 'a', .lit '/', .param "x", .lit '/', .param "x"] ["x", "x"] rfl rfl).2
      [] "POST" noHandler⟩

theorem findSome_eq_some {α β : Type} {l : List α} {f : α → Option β} {b : β}
    (h : l.findSome? f = some b) : ∃ a, a ∈ l ∧ f a = some b := by
  induction l with
  | nil => simp [List.findSome?] at h
  | cons x xs ih =>
    rw [List.findSome?] at h
    cases hfx : f x with
    | some y =>
      rw [hfx] at h
      simp at h
      exact ⟨x, List.mem_cons_self x xs, by rw [hfx, h]⟩
    | none =>
      rw [hfx] at h
      obtain ⟨a, ha, hfa⟩ := ih h
      exact ⟨a, List.mem_cons_of_mem x ha, hfa⟩

theorem mem_downFrom {k m : Nat} (h : k ∈ downFrom m) : 1 ≤ k ∧ k ≤ m := by
  induction m with
  | zero => simp [downFrom] at h
  | succ m ih =>
    rw [downFrom] at h
    rcases List.mem_cons.mp h with h | h
    · omega
    · have := ih h; omega

theorem leadRun_le_length (xs : List Char) : leadRun xs ≤ xs.length := by
  induction xs with
  | nil => simp [leadRun]
  | cons c cs ih =>
    rw [leadRun]
    by_cases h : c = '/'
    · simp [h]
    · rw [if_neg h]; simpa using ih

theorem take_no_slash (xs : List Char) :
    ∀ k, k ≤ leadRun xs → ∀ c, c ∈ xs.take k → c ≠ '/' := by
  induction xs with
  | nil => intro k _ c hc; simp at hc
  | cons x cs ih =>
    intro k hk c hc
    cases k with
    | zero => simp at hc
    | succ k =>
      rw [leadRun] at hk
      by_cases hx : x = '/'
      · rw [if_pos hx] at hk; omega
      · rw [if_neg hx] at hk
        rw [List.take_succ_cons] at hc
        rcases List.mem_cons.mp hc with h | h
        · subst h; exact hx
        · exact ih k (by omega) c h

theorem scan_names (l : List Char) :
    ∀ (mode : Option (List Char)) (ts : List Token) (ns : List String),
    scanTemplate l mode = .ok (ts, ns) → ns = paramNamesOf ts := by
  induction l with
  | nil =>
    intro mode ts ns h
    cases mode with
    | none =>
      rw [scanTemplate] at h
      simp at h
      obtain ⟨h1, h2⟩ := h
      subst h1; subst h2; rfl
    | some acc => rw [scanTemplate] at h; simp at h
  | cons c rest ih =>
    intro mode ts ns h
    cases mode with
    | none =>
      rw [scanTemplate] at h
      by_cases hc : c = '\x7b'
      · rw [if_pos hc] at h
        exact ih _ _ _ h
      · rw [if_neg hc] at h
        cases hrec : scanTemplate rest none with
        | error e => rw [hrec] at h; simp [Except.map] at h
        | ok p =>
          rw [hrec] at h
          simp [Except.map] at h
          obtain ⟨h1, h2⟩ := h
          have := ih none p.1 p.2 (by rw [hrec])
          subst h1; subst h2
          simp [paramNamesOf] at this ⊢
          exact this
    | some acc =>
      rw [scanTemplate] at h
      by_cases hc : c = '\x7d'
      · rw [if_pos hc] at h
        cases hrec : scanTemplate rest none with
        | error e => rw [hrec] at h; simp [Except.map] at h
        | ok p =>
          rw [hrec] at h
          simp [Except.map] at h
          obtain ⟨h1, h2⟩ := h
          have := ih none p.1 p.2 (by rw [hrec])
          subst h1; subst h2
          simp [paramNamesOf] at this ⊢
          exact this
      · rw [if_neg hc] at h
        exact ih _ _ _ h

theorem matchGo_sound (fuel : Nat) :
    ∀ (ts : List Token) (xs : List Char) (caps : List (String × String)),
    matchGo fuel ts xs = some caps →
    caps.map Prod.fst = paramNamesOf ts
    ∧ (∀ v, v ∈ caps.map Prod.snd → v ≠ "" ∧ ∀ ch, ch ∈ v.toList → ch ≠ '/')
    ∧ (xs = flatten ts (caps.map Prod.snd) ∨ xs = flatten ts (caps.map Prod.snd) ++ ['\n']) := by
  induction fuel with
  | zero => intro ts xs caps h; rw [matchGo] at h; simp at h
  | succ f ih =>
    intro ts xs caps h
    cases ts with
    | nil =>
      rw [matchGo] at h
      by_cases hcond : xs = [] ∨ xs = ['\n']
      · rw [if_pos hcond] at h
        simp at h
        subst h
        refine ⟨rfl, by simp, ?_⟩
        rcases hcond with h0 | h0
        · left; rw [h0]; rfl
        · right; rw [h0]; rfl
      · rw [if_neg hcond] at h; simp at h
    | cons t ts' =>
      cases t with
      | lit c =>
        cases xs with
        | nil => rw [matchGo] at h; simp at h
        | cons x rest =>
          rw [matchGo] at h
          by_cases hx : x = c
          · rw [if_pos hx] at h
            obtain ⟨hnames, hvals, hflat⟩ := ih ts' rest caps h
            refine ⟨by simpa [paramNamesOf] using hnames, hvals, ?_⟩
            subst hx
            rcases hflat with h0 | h0
            · left; rw [flatten]; rw [← h0]
            · right
              rw [flatten, h0]
              simp
          · rw [if_neg hx] at h; simp at h
      | param n =>
        rw [matchGo] at h
        obtain ⟨k, hkmem, hk⟩ := findSome_eq_some h
        obtain ⟨hk1, hk2⟩ := mem_downFrom hkmem
        cases hmg : matchGo f ts' (xs.drop k) with
        | none => rw [hmg] at hk; simp at hk
        | some caps' =>
          rw [hmg] at hk
          simp at hk
          obtain ⟨hnames, hvals, hflat⟩ := ih ts' (xs.drop k) caps' hmg
          subst hk
          have hklen : k ≤ xs.length := le_trans hk2 (leadRun_le_length xs)
          have htlen : (xs.take k).length = k := by rw [List.length_take]; omega
          refine ⟨by simpa [paramNamesOf] using hnames, ?_, ?_⟩
          · intro v hv
            rcases List.mem_cons.mp hv with h0 | h0
            · subst h0
              constructor
              · intro hempty
                have h1 : xs.take k = [] := congrArg String.toList hempty
                rw [h1] at htlen
                simp at htlen
                omega
              · intro ch hch
                exact take_no_slash xs k hk2 ch hch
            · exact hvals v h0
          · have hsplit : xs.take k ++ xs.drop k = xs := List.take_append_drop k xs
            rcases hflat with h0 | h0
            · left
              show xs = xs.take k ++ flatten ts' (List.map Prod.snd caps')
              rw [← h0, hsplit]
            · right
              show xs = xs.take k ++ flatten ts' (List.map Prod.snd caps') ++ ['\n']
              rw [List.append_assoc, ← h0, hsplit]

/-- Claim C1 (amended, proved): for any compiled template, a successful
    match binds the placeholders, in order, to non-empty captures containing
    no slash (exactly one path segment each), and consumes the entire path up
    to an optional single trailing newline, the one exception to full
    anchoring that the dollar anchor of the underlying Python regex admits;
    the matcher compiled from /hello/{name} matches /hello/world with the
    capture world for name, and matches neither /hello/ nor /hello/a/b. -/
theorem placeholder_single_segment (tpl path : String) (ts : List Token) (ns : List String)
    (caps : List (String × String))
    (hc : compileTemplate tpl = .ok (ts, ns))
    (hm : matchTokens ts path.toList = some caps) :
    caps.map Prod.fst = ns
    ∧ (∀ v, v ∈ caps.map Prod.snd → v ≠ "" ∧ ∀ ch, ch ∈ v.toList → ch ≠ '/')
    ∧ (path.toList = flatten ts (caps.map Prod.snd)
        ∨ path.toList = flatten ts (caps.map Prod.snd) ++ ['\n'])
    ∧ templateMatch "/hello/{name}" "/hello/world" = some [("name", "world")]
    ∧ templateMatch "/hello/{name}" "/hello/" = none
    ∧ templateMatch "/hello/{name}" "/hello/a/b" = none := by
  obtain ⟨hnames, hvals, hflat⟩ := matchGo_sound (ts.length + 1) ts path.toList caps hm
  have hscan : scanTemplate tpl.toList none = .ok (ts, ns) := by
    rw [compileTemplate] at hc
    cases hs : scanTemplate tpl.toList none with
    | error e => rw [hs] at hc; simp at hc
    | ok p =>
      rw [hs] at hc
      have hc' : (if hasDup p.2 = true
            then (Except.error (PyErr.reError dupMsg) : Except PyErr (List Token × List String))
            else Except.ok p) = Except.ok (ts, ns) := hc
      by_cases hd : hasDup p.2 = true
      · rw [if_pos hd] at hc'; simp at hc'
      · rw [if_neg hd] at hc'
        have hp : p = (ts, ns) := by injection hc'
        rw [hp]
  have hns : ns = paramNamesOf ts := scan_names tpl.toList none ts ns hscan
  exact ⟨by rw [hnames, hns], hvals, hflat, rfl, rfl, rfl⟩

theorem placeholder_single_segment_witness :
    [("name", "world")].map Prod.fst = ["name"]
    ∧ (∀ v, v ∈ [("name", "world")].map Prod.snd → v ≠ "" ∧ ∀ ch, ch ∈ v.toList → ch ≠ '/')
    ∧ ("/hello/world".toList = flatten (templateTokens "/hello/{name}")
          ([("name", "world")].map Prod.snd)
        ∨ "/hello/world".toList = flatten (templateTokens "/hello/{name}")
          ([("name", "world")].map Prod.snd) ++ ['\n'])
    ∧ templateMatch "/hello/{name}" "/hello/world" = some [("name", "world")]
    ∧ templateMatch "/hello/{name}" "/hello/" = none
    ∧ templateMatch "/hello/{name}" "/hello/a/b" = none :=
  placeholder_single_segment "/hello/{name}" "/hello/world" (templateTokens "/hello/{name}")
    ["name"] [("name", "world")] rfl rfl

/-- Claim C1 (counterexample): the matcher compiled from /hello/{name}/x
    accepts the path /hello/world/x followed by a newline although only
    /hello/world/x is consumed, so a match can succeed without the entire
    path being consumed, refuting strict full anchoring as claimed. -/
theorem placeholder_anchor_counterexample :
    templateMatch "/hello/{name}/x" "/hello/world/x\n" = some [("name", "world")]
    ∧ String.mk (flatten (templateTokens "/hello/{name}/x") ["world"]) = "/hello/world/x"
    ∧ ("/hello/world/x" : String) ≠ "/hello/world/x\n" := by
  refine ⟨rfl, rfl, by decide⟩

/-- Claim C4 (confirmed): Router.find returns the first route, in
    registration order, whose matcher accepts the request (method compared
    case-insensitively inside Route.matches, then the anchored pattern),
    together with the captured parameter mapping: when every earlier route
    rejects and route i accepts, find returns route i with its captures; in
    particular, of two routes that both accept the same method and path, the
    earlier-registered one is returned, never the later. -/
theorem find_first_match (rs : Router) (m p : String) (i : Nat) (hi : i < rs.length)
    (caps : List (String × String))
    (hmatch : Route.matches (rs.get ⟨i, hi⟩) m p = some caps)
    (hbefore : ∀ j (hj : j < i), Route.matches (rs.get ⟨j, Nat.lt_trans hj hi⟩) m p = none) :
    Router.find rs m p = some (rs.get ⟨i, hi⟩, caps)
    ∧ ∀ (r1 r2 : Route) (ps1 : List (String × String)),
        Route.matches r1 m p = some ps1 → Router.find [r1, r2] m p = some (r1, ps1) := by
  constructor
  · induction rs generalizing i with
    | nil => exact absurd hi (by simp)
    | cons r rest ih =>
      cases i with
      | zero =>
        rw [Router.find]
        simp at hmatch ⊢
        rw [hmatch]
      | succ i =>
        have h0 : Route.matches r m p = none := by
          have := hbefore 0 (Nat.succ_pos i)
          simpa using this
        rw [Router.find, h0]
        have hmatch' : Route.matches (rest.get ⟨i, Nat.lt_of_succ_lt_succ hi⟩) m p = some caps := by
          simpa using hmatch
        have hbefore' : ∀ j (hj : j < i),
            Route.matches (rest.get ⟨j, Nat.lt_trans hj (Nat.lt_of_succ_lt_succ hi)⟩) m p = none := by
          intro j hj
          have := hbefore (j + 1) (Nat.succ_lt_succ hj)
          simpa using this
        have := ih i (Nat.lt_of_succ_lt_succ hi) hmatch' hbefore'
        rw [this]
        simp
  · intro r1 r2 ps1 h1
    rw [Router.find, h1]

theorem find_first_match_witness :
    Router.find [postRoute, getRouteA, getRouteB] "get" "/x"
      = some ([postRoute, getRouteA, getRouteB].get ⟨1, by decide⟩, [])
    ∧ ∀ (r1 r2 : Route) (ps1 : List (String × String)),
        Route.matches r1 "get" "/x" = some ps1 → Router.find [r1, r2] "get" "/x" = some (r1, ps1) :=
  find_first_match [postRoute, getRouteA, getRouteB] "get" "/x" 1 (by decide) [] rfl
    (fun j hj => by
      cases j with
      | zero => rfl
      | succ n => exact absurd hj (by omega))

/-- Claim C2 (confirmed): when the matched handler raises any exception
    other than HTTPError, whatever information it carries, the dispatcher
    produces status 500 with the JSON body whose detail is Internal Server
    Error; the result does not depend on the original failure detail, and
    endpoint is a total function into Response, so no handler-level failure
    escapes the dispatcher to the transport layer. -/
theorem unexpected_failure_500 (rs : Router) (method path : String) (r : Route)
    (params : List (String × String)) (info : String)
    (hfind : Router.find rs (pyUpper method) path = some (r, params))
    (hh : r.handler params = .raiseExc info) :
    endpoint rs method path
      = ⟨500, [jsonCT], dumps (.obj [("detail", .str "Internal Server Error")])⟩ := by
  rw [endpoint, hfind]
  simp [hh, Response.jsonR]

theorem unexpected_failure_500_witness :
    endpoint [excRoute] "get" "/x"
      = ⟨500, [jsonCT], dumps (.obj [("detail", .str "Internal Server Error")])⟩ :=
  unexpected_failure_500 [excRoute] "get" "/x" excRoute [] "boom" rfl rfl

/-- Claim C3 (confirmed): when the matched handler raises HTTPError with
    status s and detail d, the dispatcher produces status exactly s with the
    JSON body whose detail is d; and an HTTPError constructed with the
    default empty detail gets the detail HTTP followed by its status. -/
theorem http_error_translated (rs : Router) (method path : String) (r : Route)
    (params : List (String × String)) (s : Int) (d : String)
    (hfind : Router.find rs (pyUpper method) path = some (r, params))
    (hh : r.handler params = .raiseHTTP ⟨s, d⟩) :
    endpoint rs method path = ⟨s, [jsonCT], dumps (.obj [("detail", .str d)])⟩
    ∧ ∀ s0 : Int, HTTPError.init s0 "" = ⟨s0, "HTTP " ++ toString s0⟩ := by
  constructor
  · rw [endpoint, hfind]
    simp [hh, Response.jsonR]
  · intro s0
    rw [HTTPError.init, if_pos rfl]

theorem http_error_translated_witness :
    endpoint [httpErrRoute] "get" "/x" = ⟨418, [jsonCT], dumps (.obj [("detail", .str "teapot")])⟩
    ∧ ∀ s0 : Int, HTTPError.init s0 "" = ⟨s0, "HTTP " ++ toString s0⟩ :=
  http_error_translated [httpErrRoute] "get" "/x" httpErrRoute [] 418 "teapot" rfl rfl

/-- Claim C10 (confirmed): wrapping an unsupported handler return value
    such as a bare integer in the Response constructor raises the fail-fast
    TypeError, and the dispatcher catches it inside its generic except
    clause, so the client receives status 500 with the fixed JSON body
    rather than an aborted connection. -/
theorem unsupported_return_500 (rs : Router) (method path : String) (r : Route)
    (params : List (String × String)) (n : Int)
    (hfind : Router.find rs (pyUpper method) path = some (r, params))
    (hh : r.handler params = .ret (.intV n)) :
    Response.make (.intV n) 200 [] none = .error (.typeError "Unsupported content type for Response")
    ∧ endpoint rs method path
      = ⟨500, [jsonCT], dumps (.obj [("detail", .str "Internal Server Error")])⟩ := by
  refine ⟨rfl, ?_⟩
  rw [endpoint, hfind]
  simp [hh, Response.make, Response.jsonR]

theorem unsupported_return_500_witness :
    Response.make (.intV 7) 200 [] none = .error (.typeError "Unsupported content type for Response")
    ∧ endpoint [intRoute] "get" "/x"
      = ⟨500, [jsonCT], dumps (.obj [("detail", .str "Internal Server Error")])⟩ :=
  unsupported_return_500 [intRoute] "get" "/x" intRoute [] 7 rfl rfl

/-- Claim C5 (code bug): the headers property subscripts the scope with the
    capitalised key Headers, so on a scope carrying its header pairs under
    the lowercase key headers required by the transport contract it raises
    KeyError instead of returning the normalised mapping; the second
    conjunct shows the intended lowercased last-write-wins mapping is built
    only when the scope uses the capitalised key. -/
theorem headers_capitalized_key_bug :
    requestHeaders [("type", []), ("headers", [("X-Token", "abc")])] = .error (.keyError "Headers")
    ∧ requestHeaders [("Headers", [("X-Token", "abc"), ("x-token", "xyz"), ("Accept", "json")])]
        = .ok [("x-token", "xyz"), ("accept", "json")] :=
  ⟨rfl, rfl⟩

/-- Claim C7 (confirmed): after a first body call drains the stream and
    caches the joined bytes, a second body call returns byte-identical
    content with zero receive invocations and the unread stream untouched,
    and json observes exactly the same cached bytes. -/
theorem body_cached_idempotent (stream : List Msg) (b : String) (cache2 : Option String)
    (rem : List Msg) (n : Nat)
    (h1 : requestBody none stream = some (b, cache2, rem, n)) :
    cache2 = some b
    ∧ requestBody cache2 rem = some (b, some b, rem, 0)
    ∧ requestJson cache2 rem = some (if b = "" then none else some b, some b, rem, 0) := by
  cases hd : drainLoop stream with
  | none => rw [requestBody, hd] at h1; simp at h1
  | some r =>
    rw [requestBody, hd] at h1
    have h2 : (String.join r.1, some (String.join r.1), r.2.1, r.2.2)
        = (b, cache2, rem, n) := by injection h1
    have hb : String.join r.1 = b := congrArg Prod.fst h2
    have hcache : some (String.join r.1) = cache2 := congrArg (fun t => t.2.1) h2
    have hrem : r.2.1 = rem := congrArg (fun t => t.2.2.1) h2
    refine ⟨by rw [← hcache, hb], ?_, ?_⟩
    · rw [← hcache, hb]
      rfl
    · rw [← hcache, hb]
      rfl

theorem body_cached_idempotent_witness :
    (some "hello" : Option String) = some "hello"
    ∧ requestBody (some "hello") [] = some ("hello", some "hello", [], 0)
    ∧ requestJson (some "hello") [] = some (some "hello", some "hello", [], 0) :=
  body_cached_idempotent [⟨"http.request", "he", true⟩, ⟨"http.request", "llo", false⟩]
    "hello" (some "hello") [] 2 rfl

theorem lookup_dictInsert_self (d : List (String × String)) (k v : String) :
    (dictInsert d k v).lookup k = some v := by
  induction d with
  | nil => simp [dictInsert, List.lookup]
  | cons kv rest ih =>
    rw [dictInsert]
    by_cases h : kv.1 = k
    · rw [if_pos h]
      simp [List.lookup, h]
    · rw [if_neg h]
      have hbeq : (k == kv.1) = false := by
        simp
        exact fun he => h he.symm
      simp [List.lookup, hbeq, ih]

theorem lookup_dictInsert_ne (d : List (String × String)) (k v k2 : String) (h : k2 ≠ k) :
    (dictInsert d k v).lookup k2 = d.lookup k2 := by
  induction d with
  | nil =>
    have hbeq : (k2 == k) = false := by simp [h]
    simp [dictInsert, List.lookup, hbeq]
  | cons kv rest ih =>
    rw [dictInsert]
    by_cases hk : kv.1 = k
    · rw [if_pos hk]
      have hbeq : (k2 == kv.1) = false := by
        simp
        intro he
        exact h (hk ▸ he)
      simp [List.lookup, hbeq]
    · rw [if_neg hk]
      by_cases h2 : k2 = kv.1
      · simp [List.lookup, h2]
      · have hbeq : (k2 == kv.1) = false := by simp [h2]
        simp [List.lookup, hbeq, ih]

theorem lookup_foldl_insert (ps : List (String × String)) :
    ∀ (acc : List (String × String)) (k : String),
    (ps.foldl (fun d kv => dictInsert d kv.1 kv.2) acc).lookup k
      = match lastVal k ps with
        | some v => some v
        | none => acc.lookup k := by
  induction ps with
  | nil => intro acc k; rfl
  | cons kv ps ih =>
    intro acc k
    rw [List.foldl_cons, ih]
    cases hlast : lastVal k ps with
    | some v => rw [lastVal, hlast]
    | none =>
      rw [lastVal, hlast]
      by_cases hk : kv.1 = k
      · simp [hk, lookup_dictInsert_self]
      · have h2 : k ≠ kv.1 := fun he => hk he.symm
        simp [hk, lookup_dictInsert_ne _ _ _ _ h2]

/-- Claim C8 (confirmed): the query-parameter mapping sends each key to the
    value of its last occurrence among the pairs obtained by splitting the
    raw query string on ampersands and each pair at its first equals sign; a
    pair without an equals maps its bare key to the empty string; the query
    string a=1&b=&c parses to the stated mapping, splitting is at the first
    equals, and a later duplicate key overwrites an earlier one. -/
theorem query_params_spec :
    (∀ qs k, (queryParams qs).lookup k = lastVal k (queryPairs qs))
    ∧ (∀ pair, pair ≠ "" → containsEq pair = false → pairSplit pair = (pair, ""))
    ∧ queryParams "a=1&b=&c" = [("a", "1"), ("b", ""), ("c", "")]
    ∧ pairSplit "a=b=c" = ("a", "b=c")
    ∧ queryParams "x=1&x=2" = [("x", "2")] := by
  refine ⟨?_, ?_, rfl, rfl, rfl⟩
  · intro qs k
    by_cases hq : qs = ""
    · subst hq; rfl
    · rw [queryParams, if_neg hq, lookup_foldl_insert]
      cases hlast : lastVal k (queryPairs qs) with
      | some v => rfl
      | none => rfl
  · intro pair h1 h2
    rw [pairSplit, h2]
    rfl

/-- Claim C8 (confirmed): the query-parameter mapping sends each key to the
    value of its last occurrence among the pairs obtained by splitting the
    raw query string on ampersands and each pair at its first equals sign; a
    pair without an equals maps its bare key to the empty string; the query
    string a=1&b=&c parses to the stated mapping, splitting is at the first
    equals, and a later duplicate key overwrites an earlier one. -/
theorem query_params_spec_witness :
    (queryParams "a=1&a=2").lookup "a" = lastVal "a" (queryPairs "a=1&a=2")
    ∧ pairSplit "c" = ("c", "") :=
  ⟨query_params_spec.1 "a=1&a=2" "a", query_params_spec.2.1 "c" (by decide) (by decide)⟩
